import Mathlib

/-!
Verification of the `ecoclim_tools` preprocessing, configuration and package
entry-point code against its natural-language specification.

The repository's data are xarray `DataArray`s: labeled multi-dimensional
numeric arrays.  Each group of definitions below is a shallow embedding of
the repository functions a claim is about, translated from
`src/ecoclim_tools/preprocess.py`, `src/ecoclim_tools/config.py` and
`src/ecoclim_tools/__init__.py`.  Numeric array values are modelled with `ℚ`
(exact arithmetic standing in for floating point), except where the source
uses transcendental library functions (`np.cos`, `np.sqrt`), where `ℝ` is
used, and where IEEE division by zero is the point of the claim, where a
lifted type `QF` with `nan`/`inf` values is used.
-/

namespace Ecoclim

/-! ### Polynomial evaluation: `xr.polyval` (Horner) vs `_polyval` (Vandermonde)

`detrend` (preprocess.py lines 46-59) evaluates the fitted polynomial with
`xr.polyval`, whose implementation is Horner's scheme over the coefficients
taken in descending degree order.  `_polyval` (lines 61-80) builds a
Vandermonde matrix `lhs` with entries `x ^ (N - 1 - i)` carrying degree
coordinate `N - 1 - i`, multiplies it with the coefficient array (xarray
aligns the two by the value of the `degree` coordinate, pairing `x ^ k` with
the coefficient of degree `k`) and sums over the degree dimension. -/

/-- Horner evaluation of a coefficient list given in descending degree order:
`res = c_max; for each next coefficient: res = res * x + c`.  This is the
scheme `xr.polyval` uses.  The empty list case (never produced below) is 0. -/
def hornerList (x : ℚ) : List ℚ → ℚ
  | [] => 0
  | a :: as => as.foldl (fun acc b => acc * x + b) a

/-- Model of `xr.polyval(coord, coeffs)` at a single coordinate value `x`, for a
coefficient function `c` with degree coordinate `{deg, deg-1, ..., 0}`:
Horner evaluation over the coefficients in descending degree order. -/
def xrPolyval (x : ℚ) (c : ℕ → ℚ) (deg : ℕ) : ℚ :=
  hornerList x (((List.range (deg + 1)).reverse).map c)

/-- Model of `_polyval(coord, coeffs)` (preprocess.py lines 61-80) at a single
coordinate value `x`:  `N = max degree + 1`; the Vandermonde row holds
`x ^ (N - 1 - i)` for `i` in `range N`, its degree coordinate is
`N - 1 - i`, and `(lhs * coeffs).sum("degree")` pairs `x ^ k` with `c k`
(alignment by degree-coordinate value) and sums. -/
def vandPolyval (x : ℚ) (c : ℕ → ℚ) (deg : ℕ) : ℚ :=
  ∑ i ∈ Finset.range (deg + 1), x ^ (deg - i) * c (deg - i)

/-- Model of `detrend(da, dim, deg)` (preprocess.py lines 46-59) on a 1-D series:
fit coefficients come from `da.polyfit(dim, deg, skipna=True)`, which is
external library code modelled by the oracle `fit` applied to the `skipna`
flag `true`; the trend is `xr.polyval(da[dim], coeffs)` and is subtracted. -/
def detrend {n : ℕ} (da : Fin n → ℚ) (coordv : Fin n → ℚ) (deg : ℕ)
    (fit : Bool → ℕ → ℚ) : Fin n → ℚ :=
  fun t => da t - xrPolyval (coordv t) (fit true) deg

/-- Model of `detrend_dask(da, dim, deg)` (preprocess.py lines 83-117) on a 1-D
series: fit coefficients come from `da.polyfit(dim, deg, skipna=False)`
(the oracle `fit` at flag `false`); the coordinate is rebuilt as a chunked
dask array with the same values (`dask.array.from_array(da[dim].data)`),
so it is modelled by the same `coordv`; the trend is `_polyval` of that
coordinate and is subtracted. -/
def detrend_dask {n : ℕ} (da : Fin n → ℚ) (coordv : Fin n → ℚ) (deg : ℕ)
    (fit : Bool → ℕ → ℚ) : Fin n → ℚ :=
  fun t => da t - vandPolyval (coordv t) (fit false) deg

/-! ### `format_coords` (preprocess.py lines 6-44)

A gridded `DataArray` is modelled with one optional named coordinate per
horizontal axis (`lonName`/`latName`, `none` when the axis has no such
coordinate), the coordinate value lists, and the data stored as rows
indexed by latitude, each row indexed by longitude.  `sortby` permutes the
coordinate together with the data along that axis (tie order is
unspecified in the claims, so a simple insertion sort is used). -/

structure GridDA where
  lonName : Option String
  latName : Option String
  lon : List ℚ
  lat : List ℚ
  data : List (List ℚ)
deriving DecidableEq

/-- Step 1 of `format_coords`: rename `longitude -> lon`, `latitude -> lat`
when such a dimension or coordinate is present. -/
def renameCoords (da : GridDA) : GridDA :=
  { da with
    lonName := da.lonName.map (fun s => if s = "longitude" then "lon" else s)
    latName := da.latName.map (fun s => if s = "latitude" then "lat" else s) }

/-- Numpy `((lon + 180) % 360) - 180`: numpy `%` is `a - n * floor (a / n)`. -/
def wrapLonVal (q : ℚ) : ℚ :=
  ((q + 180) - 360 * ((⌊(q + 180) / 360⌋ : ℤ) : ℚ)) - 180

/-- Model of `da.lon.max()` (errors on an empty coordinate in xarray; the `[]` case
here is junk and is fenced off by nonemptiness hypotheses). -/
def lonMax : List ℚ → ℚ
  | [] => 0
  | x :: xs => xs.foldl max x

/-- Insert into a list of key/payload pairs sorted ascending by key. -/
def insertAsc {α : Type} (p : ℚ × α) : List (ℚ × α) → List (ℚ × α)
  | [] => [p]
  | q :: t => if p.1 < q.1 then p :: q :: t else q :: insertAsc p t

def sortAscPairs {α : Type} : List (ℚ × α) → List (ℚ × α)
  | [] => []
  | p :: t => insertAsc p (sortAscPairs t)

/-- Insert into a list of key/payload pairs sorted descending by key. -/
def insertDesc {α : Type} (p : ℚ × α) : List (ℚ × α) → List (ℚ × α)
  | [] => [p]
  | q :: t => if p.1 > q.1 then p :: q :: t else q :: insertDesc p t

def sortDescPairs {α : Type} : List (ℚ × α) → List (ℚ × α)
  | [] => []
  | p :: t => insertDesc p (sortDescPairs t)

/-- Model of `da.sortby("lon", ascending=True)`: reorder the longitude values and
the data columns together. -/
def sortByLonAsc (da : GridDA) : GridDA :=
  let pairs := sortAscPairs (da.lon.zip da.data.transpose)
  { da with lon := pairs.map Prod.fst, data := (pairs.map Prod.snd).transpose }

/-- Model of `da.sortby("lat", ascending=False)`: reorder the latitude values and
the data rows together. -/
def sortByLatDesc (da : GridDA) : GridDA :=
  let pairs := sortDescPairs (da.lat.zip da.data)
  { da with lat := pairs.map Prod.fst, data := pairs.map Prod.snd }

/-- Model of `format_coords(da)` (preprocess.py lines 6-44): rename
`longitude`/`latitude` to `lon`/`lat`; when a `lon` coordinate is present
and its maximum exceeds 180, wrap the longitudes with
`((lon + 180) % 360) - 180` and sort ascending by `lon` (the source also
prints a diagnostic message here); when a `lat` coordinate is present and
`lat[0] > lat[-1]` does not hold, sort descending by `lat`.  `lat[0]` and
`lat[-1]` error on an empty coordinate in xarray; here they default to 0. -/
def format_coords (da : GridDA) : GridDA :=
  let da1 := renameCoords da
  let da2 :=
    if da1.lonName = some "lon" ∧ 180 < lonMax da1.lon then
      sortByLonAsc { da1 with lon := da1.lon.map wrapLonVal }
    else da1
  if da2.latName = some "lat" ∧ ¬ (da2.lat.headD 0 > (da2.lat.getLast?).getD 0) then
    sortByLatDesc da2
  else da2

/-- A `ℚ` list is sorted descending (non-increasing). -/
def sortedDesc : List ℚ → Bool
  | [] => true
  | [_] => true
  | a :: b :: t => decide (b ≤ a) && sortedDesc (b :: t)

/-! ### `normalize` (preprocess.py lines 146-150)

`normalize(da, dim)` is `(da - da.min(dim)) / (da.max(dim) - da.min(dim))`.
The claims are about reducing over all dimensions, so the array is
flattened to a nonempty 1-D vector.  Exact rationals model the float
values; IEEE division, whose behaviour at a zero denominator is the point
of claim C9, is modelled by the lifted result type `QF`. -/

/-- A float-like result: a finite value, `nan`, or a signed infinity. -/
inductive QF where
  | nan : QF
  | posinf : QF
  | neginf : QF
  | val : ℚ → QF
deriving DecidableEq

/-- IEEE division of two finite values: `0 / 0 = nan`, `a / 0 = ±inf` for
`a ≠ 0`, and exact division otherwise. -/
def qfDiv (a b : ℚ) : QF :=
  if b = 0 then
    (if a = 0 then QF.nan else if 0 < a then QF.posinf else QF.neginf)
  else QF.val (a / b)

/-- Model of `da.min()` over all elements. -/
def minD {n : ℕ} (da : Fin (n + 1) → ℚ) : ℚ :=
  Finset.univ.inf' Finset.univ_nonempty da

/-- Model of `da.max()` over all elements. -/
def maxD {n : ℕ} (da : Fin (n + 1) → ℚ) : ℚ :=
  Finset.univ.sup' Finset.univ_nonempty da

/-- Model of `normalize(da)` (preprocess.py lines 146-150):
`(da - da.min()) / (da.max() - da.min())`, elementwise, with IEEE
division. -/
def normalize {n : ℕ} (da : Fin (n + 1) → ℚ) : Fin (n + 1) → QF :=
  fun t => qfDiv (da t - minD da) (maxD da - minD da)

/-! ### `deseasonalize` (preprocess.py lines 120-128)

The time axis is a finite index set; `time_dim.freq` (e.g. the calendar
month of each time step) is modelled by a group label `grp : Fin n → ℕ`. -/

/-- The indices of the group labelled `g`. -/
def groupMembers {n : ℕ} (grp : Fin n → ℕ) (g : ℕ) : Finset (Fin n) :=
  Finset.univ.filter (fun t => grp t = g)

/-- Model of `da.groupby(time.freq).mean(time_dim)`: the climatology of group `g`. -/
def groupbyMean {n : ℕ} (da : Fin n → ℚ) (grp : Fin n → ℕ) (g : ℕ) : ℚ :=
  (∑ s ∈ groupMembers grp g, da s) / (groupMembers grp g).card

/-- Model of `da.groupby(time.freq) - climatology`: xarray groupby arithmetic
subtracts from each element the climatology value of its group. -/
def groupbySub {n : ℕ} (da : Fin n → ℚ) (grp : Fin n → ℕ) (clim : ℕ → ℚ) :
    Fin n → ℚ :=
  fun t => da t - clim (grp t)

/-- Model of `deseasonalize(da, time_dim, freq)` (preprocess.py lines 120-128). -/
def deseasonalize {n : ℕ} (da : Fin n → ℚ) (grp : Fin n → ℕ) : Fin n → ℚ :=
  groupbySub da grp (groupbyMean da grp)

/-! ### `area_weighted_mean` (preprocess.py lines 130-138)

A 2-D `lat`×`lon` grid whose cells are `Option ℚ` (`none` models `NaN`).
The weights are `np.cos(np.deg2rad(lat))`, so values move to `ℝ`.
`da.weighted(w).mean(dim)` is xarray library code: the weighted sum treats
`NaN` data as 0, and the sum of weights counts only the cells where the
data is not `NaN`, with the 1-D weights broadcast over `lon`. -/

/-- Model of `np.deg2rad`. -/
noncomputable def deg2rad (q : ℚ) : ℝ := (q : ℝ) * Real.pi / 180

/-- Model of `np.cos(np.deg2rad(da.lat))`. -/
noncomputable def cosLatWeights {a : ℕ} (lat : Fin a → ℚ) : Fin a → ℝ :=
  fun i => Real.cos (deg2rad (lat i))

/-- Model of `da.weighted(w).mean(dim=["lat", "lon"])` with `NaN`-masking. -/
noncomputable def weightedMeanXR {a b : ℕ} (da : Fin a → Fin b → Option ℚ)
    (w : Fin a → ℝ) : ℝ :=
  (∑ i, ∑ j, match da i j with | some v => (v : ℝ) * w i | none => 0)
    / (∑ i, ∑ j, match da i j with | some _ => w i | none => 0)

/-- Model of `area_weighted_mean(da)` (preprocess.py lines 130-138). -/
noncomputable def area_weighted_mean {a b : ℕ} (lat : Fin a → ℚ)
    (da : Fin a → Fin b → Option ℚ) : ℝ :=
  weightedMeanXR da (cosLatWeights lat)

/-! ### `standardize` (preprocess.py lines 140-144) -/

/-- Model of `da.mean()` over all elements. -/
noncomputable def meanR {n : ℕ} (da : Fin (n + 1) → ℝ) : ℝ :=
  (∑ t, da t) / (n + 1)

/-- Model of `da.std()` over all elements (xarray default `ddof = 0`). -/
noncomputable def stdR {n : ℕ} (da : Fin (n + 1) → ℝ) : ℝ :=
  Real.sqrt ((∑ t, (da t - meanR da) ^ 2) / (n + 1))

/-- Model of `standardize(da)` (preprocess.py lines 140-144):
`(da - da.mean()) / da.std()`. -/
noncomputable def standardize {n : ℕ} (da : Fin (n + 1) → ℝ) : Fin (n + 1) → ℝ :=
  fun t => (da t - meanR da) / stdR da

/-! ### `mask_ocean` (preprocess.py lines 152-159) and the external input

`mask_ocean` loads `xr.tutorial.load_dataset("air_temperature").land_mask`,
a dataset fetched from the network (or a per-user on-disk cache) — input
that is not a function argument.  `ExtEnv` makes that external input
explicit; the env-threaded `...E` wrappers below restate every
preprocessing function over the same environment so that dependence on it
can be compared across functions. -/

/-- The external inputs reachable by the preprocessing module: the
tutorial land mask (1 = land, 0 = ocean). -/
structure ExtEnv (a b : ℕ) where
  landMask : Fin a → Fin b → ℚ

/-- Model of `mask_ocean(da)` (preprocess.py lines 152-159):
`da.where(land_mask == 1)` — keep the value where the mask is 1, `NaN`
elsewhere. -/
def mask_ocean {a b : ℕ} (env : ExtEnv a b) (da : Fin a → Fin b → Option ℚ) :
    Fin a → Fin b → Option ℚ :=
  fun i j => if env.landMask i j = 1 then da i j else none

def format_coordsE {a b : ℕ} (_env : ExtEnv a b) (da : GridDA) : GridDA :=
  format_coords da

def detrendE {a b n : ℕ} (_env : ExtEnv a b) (da coordv : Fin n → ℚ) (deg : ℕ)
    (fit : Bool → ℕ → ℚ) : Fin n → ℚ :=
  detrend da coordv deg fit

def detrend_daskE {a b n : ℕ} (_env : ExtEnv a b) (da coordv : Fin n → ℚ) (deg : ℕ)
    (fit : Bool → ℕ → ℚ) : Fin n → ℚ :=
  detrend_dask da coordv deg fit

def deseasonalizeE {a b n : ℕ} (_env : ExtEnv a b) (da : Fin n → ℚ)
    (grp : Fin n → ℕ) : Fin n → ℚ :=
  deseasonalize da grp

noncomputable def area_weighted_meanE {a b c d : ℕ} (_env : ExtEnv a b)
    (lat : Fin c → ℚ) (da : Fin c → Fin d → Option ℚ) : ℝ :=
  area_weighted_mean lat da

noncomputable def standardizeE {a b n : ℕ} (_env : ExtEnv a b)
    (da : Fin (n + 1) → ℝ) : Fin (n + 1) → ℝ :=
  standardize da

def normalizeE {a b n : ℕ} (_env : ExtEnv a b) (da : Fin (n + 1) → ℚ) :
    Fin (n + 1) → QF :=
  normalize da

def mask_oceanE {a b : ℕ} (env : ExtEnv a b) (da : Fin a → Fin b → Option ℚ) :
    Fin a → Fin b → Option ℚ :=
  mask_ocean env da

/-! ### `config.py`

`SCRATCH_PATH = os.getenv("ECO_SCRATCH", "./scratch")`;
`scratch_dir = Path(SCRATCH_PATH)`; `img_dir = scratch_dir / "img"`.
The process environment is a partial map from variable names to values;
paths are modelled as strings, with `Path.__truediv__` appending
`"/" ++ name`. -/

/-- The process environment: `os.getenv`. -/
structure SysEnv where
  getenv : String → Option String

/-- Model of `SCRATCH_PATH` (config.py line 6): the value of `ECO_SCRATCH` when the
variable is set, `"./scratch"` otherwise. -/
def SCRATCH_PATH (e : SysEnv) : String :=
  (e.getenv "ECO_SCRATCH").getD "./scratch"

/-- Model of `scratch_dir` (config.py line 9): `Path(SCRATCH_PATH)`. -/
def scratch_dir (e : SysEnv) : String :=
  SCRATCH_PATH e

/-- Model of `img_dir` (config.py line 10): `scratch_dir / "img"`. -/
def img_dir (e : SysEnv) : String :=
  scratch_dir e ++ "/img"

/-! ### `__init__.py`

The names defined by the preprocessing module with a public (non
underscore) name, the names `__init__.py` imports from it (lines 19-26),
and the `__all__` list (lines 29-38). -/

/-- The public functions defined in `preprocess.py`. -/
def preprocessPublicFunctions : List String :=
  ["format_coords", "detrend", "detrend_dask", "deseasonalize",
   "area_weighted_mean", "standardize", "normalize", "mask_ocean"]

/-- The names `__init__.py` imports from `.preprocess` (lines 19-26). -/
def initReexports : List String :=
  ["format_coords", "detrend", "deseasonalize", "area_weighted_mean",
   "normalize", "mask_ocean"]

/-- The `__all__` list of `__init__.py` (lines 29-38). -/
def initAllList : List String :=
  ["config", "plot", "format_coords", "detrend", "deseasonalize",
   "area_weighted_mean", "normalize", "mask_ocean"]

end Ecoclim

namespace Ecoclim

/-! ### Proofs -/

lemma foldl_horner (x acc : ℚ) (l : List ℚ) :
    l.foldl (fun a b => a * x + b) acc
      = acc * x ^ l.length + l.foldl (fun a b => a * x + b) 0 := by
  induction l generalizing acc with
  | nil => simp
  | cons b t ih =>
      simp only [List.foldl_cons, List.length_cons]
      rw [ih (acc * x + b), ih (0 * x + b)]
      ring

lemma hornerList_range (x : ℚ) (c : ℕ → ℚ) (deg : ℕ) :
    hornerList x (((List.range (deg + 1)).reverse).map c)
      = ∑ k ∈ Finset.range (deg + 1), c k * x ^ k := by
  induction deg with
  | zero => simp [hornerList, List.range_succ]
  | succ d ih =>
      have hrev : (List.range (d + 1 + 1)).reverse = (d + 1) :: (List.range (d + 1)).reverse := by
        rw [List.range_succ, List.reverse_append]
        simp
      rw [hrev]
      rcases hL : ((List.range (d + 1)).reverse).map c with _ | ⟨a, as⟩
      · exact absurd (congrArg List.length hL) (by simp)
      · have hlen : as.length = d := by
          have h := congrArg List.length hL
          simp at h
          omega
        have hih : as.foldl (fun p b => p * x + b) a
            = ∑ k ∈ Finset.range (d + 1), c k * x ^ k := by
          rw [← ih, hL]
          rfl
        have hfold0 : as.foldl (fun p b => p * x + b) a
            = a * x ^ as.length + as.foldl (fun p b => p * x + b) 0 :=
          foldl_horner x a as
        simp only [List.map_cons, hL, hornerList, List.foldl_cons]
        rw [foldl_horner x (c (d + 1) * x + a) as, Finset.sum_range_succ, ← hih, hfold0, hlen]
        ring

lemma xrPolyval_eq_sum (x : ℚ) (c : ℕ → ℚ) (deg : ℕ) :
    xrPolyval x c deg = ∑ k ∈ Finset.range (deg + 1), c k * x ^ k :=
  hornerList_range x c deg

lemma vandPolyval_eq_sum (x : ℚ) (c : ℕ → ℚ) (deg : ℕ) :
    vandPolyval x c deg = ∑ k ∈ Finset.range (deg + 1), c k * x ^ k := by
  unfold vandPolyval
  have := Finset.sum_range_reflect (fun k => c k * x ^ k) (deg + 1)
  calc ∑ i ∈ Finset.range (deg + 1), x ^ (deg - i) * c (deg - i)
      = ∑ i ∈ Finset.range (deg + 1), c (deg + 1 - 1 - i) * x ^ (deg + 1 - 1 - i) := by
        apply Finset.sum_congr rfl
        intro i _
        simp only [Nat.add_sub_cancel]
        ring
    _ = ∑ k ∈ Finset.range (deg + 1), c k * x ^ k := this

/-- C1. For data with no `NaN` along the fitted dimension the two
`polyfit` calls agree (`skipna` only changes how missing values enter the
least-squares fit, modelled by the hypothesis `fit false = fit true` on the
external `polyfit` oracle), and then `detrend_dask` — `skipna=False` fit
followed by the Vandermonde evaluator `_polyval` on the rechunked
coordinate — returns exactly what the naive `detrend` — `skipna=True` fit
followed by `xr.polyval` — returns: both evaluators compute
`∑ k ≤ deg, c k * x ^ k`. -/
theorem detrend_dask_eq_detrend {n : ℕ} (da coordv : Fin n → ℚ) (deg : ℕ)
    (fit : Bool → ℕ → ℚ) (hfit : fit false = fit true) :
    detrend_dask da coordv deg fit = detrend da coordv deg fit := by
  funext t
  unfold detrend detrend_dask
  rw [hfit, vandPolyval_eq_sum, xrPolyval_eq_sum]

/-- Witness for C1: a concrete 3-point series with a degree-1 fit. -/
theorem detrend_dask_eq_detrend_witness :
    ((fun _ k => if k = 0 then (2 : ℚ) else 3) false
      = (fun _ k => if k = 0 then (2 : ℚ) else 3) true)
    ∧ detrend_dask ![1, 2, 3] ![0, 1, 2] 1 (fun _ k => if k = 0 then (2 : ℚ) else 3)
      = detrend ![1, 2, 3] ![0, 1, 2] 1 (fun _ k => if k = 0 then (2 : ℚ) else 3) :=
  ⟨rfl, detrend_dask_eq_detrend ![1, 2, 3] ![0, 1, 2] 1 _ rfl⟩

/-- C2. The claim says `format_coords` always returns a result sorted
descending by `lat` when a `lat` coordinate is present, as does the
function's own docstring; but the source only sorts when
`lat[0] > lat[-1]` fails, a first-versus-last check that does not detect
unsortedness in the middle.  On `lat = [2, 0, 1]` the guard `2 > 1` holds,
no sort happens, and the returned latitude list is not sorted descending. -/
theorem format_coords_lat_unsorted :
    (format_coords ⟨some "lon", some "lat", [10], [2, 0, 1], [[1], [2], [3]]⟩).lat
      = [2, 0, 1]
    ∧ sortedDesc [2, 0, 1] = false := by
  constructor
  · decide
  · decide

/-- C10. When the (nonempty) `lon` coordinate has maximum at most 180,
the wrap-and-sort branch of `format_coords` is skipped (its guard requires
`max > 180`), and no other step touches `lon`, so the longitude values and
their order are returned unchanged — even when they are out of order. -/
theorem format_coords_lon_frame (da : GridDA) (_hne : da.lon ≠ [])
    (hmax : lonMax da.lon ≤ 180) :
    (format_coords da).lon = da.lon := by
  have hcond : ¬ ((renameCoords da).lonName = some "lon"
      ∧ 180 < lonMax (renameCoords da).lon) := by
    rintro ⟨-, hlt⟩
    exact absurd hlt (not_lt.mpr hmax)
  simp only [format_coords]
  rw [if_neg hcond]
  split_ifs with h2
  · rfl
  · rfl

/-- C3 counterexample. `mask_ocean`'s result is not a function of its
`DataArray` argument alone: it also depends on the externally loaded
tutorial land mask.  Two environments whose land masks differ at a cell
give different outputs on the same input array. -/
theorem mask_ocean_env_dependent :
    mask_ocean (⟨fun _ _ => 1⟩ : ExtEnv 1 1) (fun _ _ => some 5) 0 0
      ≠ mask_ocean (⟨fun _ _ => 0⟩ : ExtEnv 1 1) (fun _ _ => some 5) 0 0 := by
  decide

/-- C3 amended. With the external input (the tutorial land mask) made
explicit as an environment, every preprocessing function except
`mask_ocean` is insensitive to it: its result depends only on the
function arguments, and equal inputs give equal outputs. -/
theorem preprocess_env_independent_except_mask_ocean
    {a b a2 b2 n : ℕ} (e1 e2 : ExtEnv a b) :
    (∀ da : GridDA, format_coordsE e1 da = format_coordsE e2 da)
    ∧ (∀ (da coordv : Fin n → ℚ) (deg : ℕ) (fit : Bool → ℕ → ℚ),
        detrendE e1 da coordv deg fit = detrendE e2 da coordv deg fit)
    ∧ (∀ (da coordv : Fin n → ℚ) (deg : ℕ) (fit : Bool → ℕ → ℚ),
        detrend_daskE e1 da coordv deg fit = detrend_daskE e2 da coordv deg fit)
    ∧ (∀ (da : Fin n → ℚ) (grp : Fin n → ℕ),
        deseasonalizeE e1 da grp = deseasonalizeE e2 da grp)
    ∧ (∀ (lat : Fin a2 → ℚ) (da : Fin a2 → Fin b2 → Option ℚ),
        area_weighted_meanE e1 lat da = area_weighted_meanE e2 lat da)
    ∧ (∀ da : Fin (n + 1) → ℝ, standardizeE e1 da = standardizeE e2 da)
    ∧ (∀ da : Fin (n + 1) → ℚ, normalizeE e1 da = normalizeE e2 da) :=
  ⟨fun _ => rfl, fun _ _ _ _ => rfl, fun _ _ _ _ => rfl, fun _ _ => rfl,
   fun _ _ => rfl, fun _ => rfl, fun _ => rfl⟩

/-- C4. `deseasonalize` subtracts from each element the mean of its
group (the climatology), and consequently the mean of the result within
any inhabited group — witnessed by the element `t` — is zero. -/
theorem deseasonalize_group_mean_zero {n : ℕ} (da : Fin n → ℚ)
    (grp : Fin n → ℕ) (t : Fin n) :
    (deseasonalize da grp t = da t - groupbyMean da grp (grp t))
    ∧ (∑ s ∈ groupMembers grp (grp t), deseasonalize da grp s)
        / (groupMembers grp (grp t)).card = 0 := by
  refine ⟨rfl, ?_⟩
  have hmem : t ∈ groupMembers grp (grp t) := by
    simp [groupMembers]
  have hcard0 : ((groupMembers grp (grp t)).card : ℚ) ≠ 0 := by
    exact_mod_cast (Finset.card_pos.mpr ⟨t, hmem⟩).ne'
  have hsum : (∑ s ∈ groupMembers grp (grp t), deseasonalize da grp s) = 0 := by
    have hcongr : ∀ s ∈ groupMembers grp (grp t),
        deseasonalize da grp s = da s - groupbyMean da grp (grp t) := by
      intro s hs
      have hgs : grp s = grp t := by simpa [groupMembers] using hs
      simp [deseasonalize, groupbySub, hgs]
    rw [Finset.sum_congr rfl hcongr, Finset.sum_sub_distrib, Finset.sum_const,
      nsmul_eq_mul]
    unfold groupbyMean
    field_simp
  rw [hsum, zero_div]

/-- C5. With no `NaN` in the data, `area_weighted_mean` is the
cosine-latitude weighted spatial mean: the sum over the grid of
`da * cos(lat * π / 180)` divided by the sum over the grid of the weights
`cos(lat * π / 180)` (the 1-D weights broadcast over longitude). -/
theorem area_weighted_mean_formula {a b : ℕ} (lat : Fin a → ℚ)
    (da : Fin a → Fin b → Option ℚ) (htot : ∀ i j, (da i j).isSome) :
    area_weighted_mean lat da
      = (∑ i : Fin a, ∑ j : Fin b,
            ((da i j).getD 0 : ℝ) * Real.cos ((lat i : ℝ) * Real.pi / 180))
        / (∑ i : Fin a, ∑ _j : Fin b,
            Real.cos ((lat i : ℝ) * Real.pi / 180)) := by
  unfold area_weighted_mean weightedMeanXR cosLatWeights deg2rad
  congr 1
  · refine Finset.sum_congr rfl (fun i _ => Finset.sum_congr rfl (fun j _ => ?_))
    rcases h : da i j with _ | v
    · exact absurd (h ▸ htot i j) (by simp)
    · simp [h]
  · refine Finset.sum_congr rfl (fun i _ => Finset.sum_congr rfl (fun j _ => ?_))
    rcases h : da i j with _ | v
    · exact absurd (h ▸ htot i j) (by simp)
    · simp [h]

/-- Witness for C5: a 1×1 grid at latitude 0 with value 5. -/
theorem area_weighted_mean_formula_witness :
    (∀ i j : Fin 1, ((fun _ _ => some (5 : ℚ) : Fin 1 → Fin 1 → Option ℚ) i j).isSome)
    ∧ area_weighted_mean ![(0 : ℚ)] (fun _ _ => some (5 : ℚ) : Fin 1 → Fin 1 → Option ℚ)
      = (∑ i : Fin 1, ∑ _j : Fin 1,
            ((5 : ℚ) : ℝ) * Real.cos ((![(0 : ℚ)] i : ℝ) * Real.pi / 180))
        / (∑ i : Fin 1, ∑ _j : Fin 1,
            Real.cos ((![(0 : ℚ)] i : ℝ) * Real.pi / 180)) := by
  constructor
  · decide
  · have h := area_weighted_mean_formula ![(0 : ℚ)]
      (fun _ _ => some (5 : ℚ) : Fin 1 → Fin 1 → Option ℚ) (by decide)
    simpa using h

/-- C6. When the maximum strictly exceeds the minimum, `normalize`
returns the finite values `(da - min) / (max - min)`, the values 0 and 1
are attained, and every returned value lies in `[0, 1]` — i.e. the
minimum of the result is 0 and its maximum is 1. -/
theorem normalize_unit_range {n : ℕ} (da : Fin (n + 1) → ℚ)
    (h : minD da < maxD da) :
    (∀ t, normalize da t = QF.val ((da t - minD da) / (maxD da - minD da)))
    ∧ (∃ t, normalize da t = QF.val 0)
    ∧ (∃ t, normalize da t = QF.val 1)
    ∧ (∀ t q, normalize da t = QF.val q → 0 ≤ q ∧ q ≤ 1) := by
  have hpos : 0 < maxD da - minD da := sub_pos.mpr h
  have hden : maxD da - minD da ≠ 0 := ne_of_gt hpos
  have hval : ∀ t, normalize da t
      = QF.val ((da t - minD da) / (maxD da - minD da)) := by
    intro t
    unfold normalize qfDiv
    rw [if_neg hden]
  refine ⟨hval, ?_, ?_, ?_⟩
  · obtain ⟨t0, _, ht0⟩ := Finset.exists_mem_eq_inf' Finset.univ_nonempty da
    refine ⟨t0, ?_⟩
    rw [hval t0]
    have : da t0 = minD da := ht0.symm
    rw [this, sub_self, zero_div]
  · obtain ⟨t1, _, ht1⟩ := Finset.exists_mem_eq_sup' Finset.univ_nonempty da
    refine ⟨t1, ?_⟩
    rw [hval t1]
    have hda : da t1 = maxD da := ht1.symm
    rw [hda, div_self hden]
  · intro t q hq
    rw [hval t] at hq
    injection hq with hq
    subst hq
    constructor
    · exact div_nonneg (sub_nonneg.mpr (Finset.inf'_le _ (Finset.mem_univ t)))
        (le_of_lt hpos)
    · exact (div_le_one hpos).mpr
        (sub_le_sub_right (Finset.le_sup' da (Finset.mem_univ t)) _)

/-- Witness for C6: the vector `[0, 2]` attains normalized value 0. -/
theorem normalize_unit_range_witness :
    minD (![0, 2] : Fin (1 + 1) → ℚ) < maxD (![0, 2] : Fin (1 + 1) → ℚ)
    ∧ ∃ t, normalize (![0, 2] : Fin (1 + 1) → ℚ) t = QF.val 0 :=
  ⟨by decide, (normalize_unit_range (![0, 2] : Fin (1 + 1) → ℚ) (by decide)).2.1⟩

/-- C7. `SCRATCH_PATH` is the value of `ECO_SCRATCH` when that
variable is set and `"./scratch"` otherwise; `scratch_dir` is that path;
`img_dir` is its `img` subdirectory. -/
theorem config_scratch_resolution (e : SysEnv) :
    (∀ s, e.getenv "ECO_SCRATCH" = some s → SCRATCH_PATH e = s)
    ∧ (e.getenv "ECO_SCRATCH" = none → SCRATCH_PATH e = "./scratch")
    ∧ scratch_dir e = SCRATCH_PATH e
    ∧ img_dir e = scratch_dir e ++ "/img" := by
  refine ⟨?_, ?_, rfl, rfl⟩
  · intro s hs
    unfold SCRATCH_PATH
    rw [hs]
    rfl
  · intro hs
    unfold SCRATCH_PATH
    rw [hs]
    rfl

/-- Witness for C7: a set and an unset environment. -/
theorem config_scratch_resolution_witness :
    SCRATCH_PATH ⟨fun v => if v = "ECO_SCRATCH" then some "/tmp/eco" else none⟩
      = "/tmp/eco"
    ∧ SCRATCH_PATH ⟨fun _ => none⟩ = "./scratch" :=
  ⟨(config_scratch_resolution _).1 "/tmp/eco" (by decide),
   (config_scratch_resolution ⟨fun _ => none⟩).2.1 rfl⟩

/-- C8. `detrend_dask` and `standardize` are public preprocessing
functions (and the repository's own tests call them as package
attributes), yet `__init__.py` neither imports them from `.preprocess`
nor lists them in `__all__`, so they are not importable from the package
namespace. -/
theorem init_missing_reexports :
    ("detrend_dask" ∈ preprocessPublicFunctions
      ∧ "standardize" ∈ preprocessPublicFunctions)
    ∧ ("detrend_dask" ∉ initReexports ∧ "standardize" ∉ initReexports)
    ∧ ("detrend_dask" ∉ initAllList ∧ "standardize" ∉ initAllList) := by
  decide

/-- C9. On a constant array the unguarded denominator
`max - min` is zero, the numerator is zero too, and IEEE division returns
`NaN` at every element — a total (non-raising) operation whose result is
not a finite value in `[0, 1]`. -/
theorem normalize_const_nan {n : ℕ} (da : Fin (n + 1) → ℚ) (c : ℚ)
    (h : ∀ t, da t = c) : ∀ t, normalize da t = QF.nan := by
  have hda : da = fun _ => c := funext h
  have hmin : minD da = c := by
    unfold minD
    rw [hda]
    exact Finset.inf'_const _ c
  have hmax : maxD da = c := by
    unfold maxD
    rw [hda]
    exact Finset.sup'_const _ c
  intro t
  unfold normalize qfDiv
  rw [h t, hmin, hmax]
  simp

/-- Witness for C9: the constant vector `[3, 3]`. -/
theorem normalize_const_nan_witness :
    (∀ t, (![3, 3] : Fin (1 + 1) → ℚ) t = 3)
    ∧ ∀ t, normalize (![3, 3] : Fin (1 + 1) → ℚ) t = QF.nan :=
  ⟨by decide, normalize_const_nan (![3, 3] : Fin (1 + 1) → ℚ) 3 (by decide)⟩

/-- Witness for C10: an out-of-order longitude list within `[-180, 180]`
is left untouched. -/
theorem format_coords_lon_frame_witness :
    (([10, -20, 30] : List ℚ) ≠ [] ∧ lonMax [10, -20, 30] ≤ 180)
    ∧ (format_coords
        ⟨some "lon", some "lat", [10, -20, 30], [0, 5], [[1, 2, 3], [4, 5, 6]]⟩).lon
      = [10, -20, 30] :=
  ⟨⟨by decide, by decide⟩, format_coords_lon_frame _ (by decide) (by decide)⟩

end Ecoclim
